import Mathlib

/-!
Shallow embedding of the opool object-recycling pool library.

The Rust sources are embedded as pure Lean functions: interior-mutable
storage becomes explicit state passing (each operation returns the updated
pool), and every operation additionally returns an `Effects` record counting
how many times it invoked the allocator methods (`allocate`, `reset`,
`is_valid`) and how many objects it destroyed in place, so that
"exactly once" claims become provable equalities.
-/

namespace Opool

/-- Instrumentation attached to every pool operation: how many times the
operation called each allocator method and how many held objects it dropped
in place (`ptr::drop_in_place`, or a rejected `push` whose `Err(obj)` is
discarded). -/
structure Effects where
  allocates : Nat := 0
  resets : Nat := 0
  validates : Nat := 0
  destroys : Nat := 0
deriving Repr, DecidableEq

/-- The `PoolAllocator` trait (src/pool_allocator.rs): `allocate` builds a new
object, `reset` restores a recycled object (default: no-op), `is_valid`
decides whether a released object may re-enter storage (default: `true`).
Rust's `&mut T` reset becomes a function `T → T`. -/
structure PoolAllocator (T : Type) where
  allocate : T
  reset : T → T := fun obj => obj
  is_valid : T → Bool := fun _ => true

/-- Modelled from the spec: the bounded concurrent storage used by the
concurrent pool (the `crossbeam_queue::ArrayQueue` dependency, whose code is
outside this repository) — "a fixed-capacity, multi-producer/multi-consumer,
non-blocking queue"; a push into a full queue is rejected and a pop takes the
oldest element. The front of `items` is the pop end. -/
structure ArrayQueue (T : Type) where
  cap : Nat
  items : List T
deriving Repr, DecidableEq

/-- `ArrayQueue::new(cap)`: empty queue of the given fixed capacity. -/
def ArrayQueue.new (T : Type) (cap : Nat) : ArrayQueue T :=
  ⟨cap, []⟩

/-- `ArrayQueue::push`: appends at the back when there is room; returns
whether the push was accepted (`Ok(())` vs `Err(obj)`). -/
def ArrayQueue.push {T : Type} (q : ArrayQueue T) (x : T) : ArrayQueue T × Bool :=
  if q.items.length < q.cap then (⟨q.cap, q.items ++ [x]⟩, true) else (q, false)

/-- `ArrayQueue::pop`: removes the element at the front, if any. -/
def ArrayQueue.pop {T : Type} (q : ArrayQueue T) : Option T × ArrayQueue T :=
  match q with
  | ⟨cap, []⟩ => (none, ⟨cap, []⟩)
  | ⟨cap, x :: rest⟩ => (some x, ⟨cap, rest⟩)

/-- `ArrayQueue::len`. -/
def ArrayQueue.len {T : Type} (q : ArrayQueue T) : Nat :=
  q.items.length

/-- `ArrayQueue::capacity`. -/
def ArrayQueue.capacity {T : Type} (q : ArrayQueue T) : Nat :=
  q.cap

/-- The concurrent `Pool` (src/concurrent.rs): an allocator plus an
`ArrayQueue` of recycled objects. -/
structure Pool (T : Type) where
  allocator : PoolAllocator T
  storage : ArrayQueue T

/-- A guard over one checked-out object. The `MaybeUninit<T>` slot plus the
`mem::forget` in `into_inner` are modelled by the `armed` flag: `armed = true`
means the Drop glue will still run on this guard; `into_inner` clears it, so
release logic never fires afterwards. Covers `RefGuard` (borrow-scoped). -/
structure RefGuard (T : Type) where
  obj : T
  armed : Bool

/-- The shared-ownership guard `RcGuard`; the held object and slot state are
the same shape as `RefGuard` (the `Arc<Pool>` handle it additionally clones
does not affect object or storage state). -/
structure RcGuard (T : Type) where
  obj : T
  armed : Bool

/-- `Pool::new(pool_size, allocator)`: empty storage, no eager allocation. -/
def Pool.new {T : Type} (pool_size : Nat) (allocator : PoolAllocator T) : Pool T :=
  ⟨allocator, ArrayQueue.new T pool_size⟩

/-- The `for _ in 0..pool_size` loop of `Pool::new_prefilled`: each iteration
calls `allocate` once and pushes the result, discarding the push result
(`let _ = storage.push(...)`; a rejected push destroys the object). -/
def prefillLoop {T : Type} (a : PoolAllocator T) : Nat → ArrayQueue T → ArrayQueue T × Effects
  | 0, s => (s, {})
  | n + 1, s =>
      let r := s.push a.allocate
      let rest := prefillLoop a n r.1
      (rest.1, { rest.2 with
                   allocates := rest.2.allocates + 1,
                   destroys := rest.2.destroys + (if r.2 then 0 else 1) })

/-- `Pool::new_prefilled(pool_size, allocator)`: fills a fresh queue by
pushing `pool_size` freshly allocated objects. -/
def Pool.new_prefilled {T : Type} (pool_size : Nat) (allocator : PoolAllocator T) :
    Pool T × Effects :=
  let r := prefillLoop allocator pool_size (ArrayQueue.new T pool_size)
  (⟨allocator, r.1⟩, r.2)

/-- `Pool::len`. -/
def Pool.len {T : Type} (p : Pool T) : Nat :=
  p.storage.len

/-- `Pool::cap`. -/
def Pool.cap {T : Type} (p : Pool T) : Nat :=
  p.storage.capacity

/-- `Pool::get`: pop from storage; on success `reset` then wrap in a
`RefGuard`; when empty, `allocate` fresh and wrap directly (no reset). -/
def Pool.get {T : Type} (p : Pool T) : RefGuard T × Pool T × Effects :=
  match p.storage.pop with
  | (some obj, s) =>
      let obj := p.allocator.reset obj
      (⟨obj, true⟩, ⟨p.allocator, s⟩, { resets := 1 })
  | (none, s) => (⟨p.allocator.allocate, true⟩, ⟨p.allocator, s⟩, { allocates := 1 })

/-- `Pool::get_rc`: same pop/reset/allocate logic as `Pool::get`, wrapping in
an `RcGuard` that holds a cloned `Arc` handle instead of a borrow. -/
def Pool.get_rc {T : Type} (p : Pool T) : RcGuard T × Pool T × Effects :=
  match p.storage.pop with
  | (some obj, s) =>
      let obj := p.allocator.reset obj
      (⟨obj, true⟩, ⟨p.allocator, s⟩, { resets := 1 })
  | (none, s) => (⟨p.allocator.allocate, true⟩, ⟨p.allocator, s⟩, { allocates := 1 })

/-- `RefGuard::into_inner`: reads the object out of the slot and `forget`s the
guard, so its Drop glue never runs; modelled by returning the object together
with the disarmed remnant of the guard. -/
def RefGuard.into_inner {T : Type} (g : RefGuard T) : T × RefGuard T :=
  (g.obj, ⟨g.obj, false⟩)

/-- `RcGuard::into_inner`: same as `RefGuard::into_inner` (it additionally
drops the `Arc` handle, which does not affect object or storage state). -/
def RcGuard.into_inner {T : Type} (g : RcGuard T) : T × RcGuard T :=
  (g.obj, ⟨g.obj, false⟩)

/-- `impl Drop for RefGuard` (src/concurrent.rs): when the guard is still
armed, evaluate `is_valid` on the held object; if valid, push it into
storage, destroying it when the push is rejected (`let _ = ... .push(...)`);
if invalid, `drop_in_place`. A disarmed guard (after `into_inner`) was
forgotten, so Drop never runs. -/
def RefGuard.drop {T : Type} (g : RefGuard T) (p : Pool T) : Pool T × Effects :=
  if g.armed then
    if p.allocator.is_valid g.obj then
      let r := p.storage.push g.obj
      (⟨p.allocator, r.1⟩, { validates := 1, destroys := if r.2 then 0 else 1 })
    else
      (p, { validates := 1, destroys := 1 })
  else (p, {})

/-- `impl Drop for RcGuard` (src/concurrent.rs): identical body to the
`RefGuard` Drop impl. -/
def RcGuard.drop {T : Type} (g : RcGuard T) (p : Pool T) : Pool T × Effects :=
  if g.armed then
    if p.allocator.is_valid g.obj then
      let r := p.storage.push g.obj
      (⟨p.allocator, r.1⟩, { validates := 1, destroys := if r.2 then 0 else 1 })
    else
      (p, { validates := 1, destroys := 1 })
  else (p, {})

/-- Modelled from the spec: the thread-confined storage (the standard
library `VecDeque` dependency, whose code is outside this repository) — "a
growable double-ended sequence of recycled objects"; `with_capacity(n)`
reserves room for `n` elements, `pop_front` takes the oldest element,
`push_back` appends at the back, growing the allocation only when full. The
front of `items` is the pop end. -/
structure VecDeque (T : Type) where
  cap : Nat
  items : List T
deriving Repr, DecidableEq

/-- `VecDeque::with_capacity(n)`: empty deque with room for `n` elements. -/
def VecDeque.with_capacity (T : Type) (n : Nat) : VecDeque T :=
  ⟨n, []⟩

/-- `VecDeque::push_back`: always appends; reallocates (amortized growth, to
at least room for one more element) only when the deque is full. Every
`push_back` in this repository is guarded by `len() < capacity()` or happens
during prefill below capacity, so the growth branch is never reached. -/
def VecDeque.push_back {T : Type} (d : VecDeque T) (x : T) : VecDeque T :=
  if d.items.length < d.cap then ⟨d.cap, d.items ++ [x]⟩
  else ⟨max (2 * d.cap) (d.items.length + 1), d.items ++ [x]⟩

/-- `VecDeque::pop_front`: removes the front element, if any. -/
def VecDeque.pop_front {T : Type} (d : VecDeque T) : Option T × VecDeque T :=
  match d with
  | ⟨cap, []⟩ => (none, ⟨cap, []⟩)
  | ⟨cap, x :: rest⟩ => (some x, ⟨cap, rest⟩)

/-- `VecDeque::len`. -/
def VecDeque.len {T : Type} (d : VecDeque T) : Nat :=
  d.items.length

/-- `VecDeque::capacity`. -/
def VecDeque.capacity {T : Type} (d : VecDeque T) : Nat :=
  d.cap

/-- `VecDeque::is_empty`. -/
def VecDeque.is_empty {T : Type} (d : VecDeque T) : Bool :=
  d.items.isEmpty

/-- The thread-confined `LocalPool` (src/thread_local.rs): an allocator plus
a `VecDeque` of recycled objects behind an `UnsafeCell` (single-thread
interior mutability, modelled by explicit state passing; the `PhantomData`
thread-confinement marker has no state). -/
structure LocalPool (T : Type) where
  allocator : PoolAllocator T
  storage : VecDeque T

/-- The borrow-scoped guard `RefLocalGuard`; slot state as in `RefGuard`. -/
structure RefLocalGuard (T : Type) where
  obj : T
  armed : Bool

/-- The shared-ownership guard `RcLocalGuard`; slot state as in `RefGuard`
(the `Rc<LocalPool>` handle does not affect object or storage state). -/
structure RcLocalGuard (T : Type) where
  obj : T
  armed : Bool

/-- The `for _ in 0..pool_size` loop of `LocalPool::new_prefilled`: each
iteration calls `allocate` once and `push_back`s the result. -/
def localPrefillLoop {T : Type} (a : PoolAllocator T) :
    Nat → VecDeque T → VecDeque T × Effects
  | 0, d => (d, {})
  | n + 1, d =>
      let d1 := d.push_back a.allocate
      let rest := localPrefillLoop a n d1
      (rest.1, { rest.2 with allocates := rest.2.allocates + 1 })

/-- `LocalPool::new_prefilled(pool_size, allocator)`. -/
def LocalPool.new_prefilled {T : Type} (pool_size : Nat) (allocator : PoolAllocator T) :
    LocalPool T × Effects :=
  let r := localPrefillLoop allocator pool_size (VecDeque.with_capacity T pool_size)
  (⟨allocator, r.1⟩, r.2)

/-- `LocalPool::new(pool_size, allocator)`: empty storage with reserved
capacity, no eager allocation. -/
def LocalPool.new {T : Type} (pool_size : Nat) (allocator : PoolAllocator T) : LocalPool T :=
  ⟨allocator, VecDeque.with_capacity T pool_size⟩

/-- `LocalPool::try_get`: pop the front of storage; on success `reset` then
wrap in a `RefLocalGuard`; when empty, return `None` (never allocates). -/
def LocalPool.try_get {T : Type} (q : LocalPool T) :
    Option (RefLocalGuard T) × LocalPool T × Effects :=
  match q.storage.pop_front with
  | (some obj, s) =>
      let obj := q.allocator.reset obj
      (some ⟨obj, true⟩, ⟨q.allocator, s⟩, { resets := 1 })
  | (none, s) => (none, ⟨q.allocator, s⟩, {})

/-- `LocalPool::get`: pop the front of storage; on success `reset` then wrap;
when empty, `allocate` fresh and wrap directly (no reset). -/
def LocalPool.get {T : Type} (q : LocalPool T) : RefLocalGuard T × LocalPool T × Effects :=
  match q.storage.pop_front with
  | (some obj, s) =>
      let obj := q.allocator.reset obj
      (⟨obj, true⟩, ⟨q.allocator, s⟩, { resets := 1 })
  | (none, s) => (⟨q.allocator.allocate, true⟩, ⟨q.allocator, s⟩, { allocates := 1 })

/-- `LocalPool::try_get_rc`: same pop/reset logic as `try_get`, wrapping in an
`RcLocalGuard` holding a cloned `Rc` handle. -/
def LocalPool.try_get_rc {T : Type} (q : LocalPool T) :
    Option (RcLocalGuard T) × LocalPool T × Effects :=
  match q.storage.pop_front with
  | (some obj, s) =>
      let obj := q.allocator.reset obj
      (some ⟨obj, true⟩, ⟨q.allocator, s⟩, { resets := 1 })
  | (none, s) => (none, ⟨q.allocator, s⟩, {})

/-- `LocalPool::get_rc`: same pop/reset/allocate logic as `get`, wrapping in
an `RcLocalGuard` holding a cloned `Rc` handle. -/
def LocalPool.get_rc {T : Type} (q : LocalPool T) : RcLocalGuard T × LocalPool T × Effects :=
  match q.storage.pop_front with
  | (some obj, s) =>
      let obj := q.allocator.reset obj
      (⟨obj, true⟩, ⟨q.allocator, s⟩, { resets := 1 })
  | (none, s) => (⟨q.allocator.allocate, true⟩, ⟨q.allocator, s⟩, { allocates := 1 })

/-- `LocalPool::len`. -/
def LocalPool.len {T : Type} (q : LocalPool T) : Nat :=
  q.storage.len

/-- `LocalPool::is_empty`. -/
def LocalPool.is_empty {T : Type} (q : LocalPool T) : Bool :=
  q.storage.is_empty

/-- `LocalPool::cap`. -/
def LocalPool.cap {T : Type} (q : LocalPool T) : Nat :=
  q.storage.capacity

/-- `RefLocalGuard::into_inner`: read the object out and `forget` the guard
(Drop glue disarmed). -/
def RefLocalGuard.into_inner {T : Type} (g : RefLocalGuard T) : T × RefLocalGuard T :=
  (g.obj, ⟨g.obj, false⟩)

/-- `RcLocalGuard::into_inner`: same as `RefLocalGuard::into_inner` (also
drops the `Rc` handle, which does not affect object or storage state). -/
def RcLocalGuard.into_inner {T : Type} (g : RcLocalGuard T) : T × RcLocalGuard T :=
  (g.obj, ⟨g.obj, false⟩)

/-- `impl Drop for RefLocalGuard` (src/thread_local.rs): when the guard is
still armed, evaluate `is_valid` on the held object and short-circuit with
`storage.len() < storage.capacity()`; when both hold, `push_back` the object,
otherwise `drop_in_place` it. A disarmed guard was forgotten, so Drop never
runs. -/
def RefLocalGuard.drop {T : Type} (g : RefLocalGuard T) (q : LocalPool T) :
    LocalPool T × Effects :=
  if g.armed then
    if q.allocator.is_valid g.obj && decide (q.storage.len < q.storage.capacity) then
      (⟨q.allocator, q.storage.push_back g.obj⟩, { validates := 1 })
    else
      (q, { validates := 1, destroys := 1 })
  else (q, {})

/-- `impl Drop for RcLocalGuard` (src/thread_local.rs): identical body to the
`RefLocalGuard` Drop impl. -/
def RcLocalGuard.drop {T : Type} (g : RcLocalGuard T) (q : LocalPool T) :
    LocalPool T × Effects :=
  if g.armed then
    if q.allocator.is_valid g.obj && decide (q.storage.len < q.storage.capacity) then
      (⟨q.allocator, q.storage.push_back g.obj⟩, { validates := 1 })
    else
      (q, { validates := 1, destroys := 1 })
  else (q, {})

/-- The `stored_count ≤ capacity` invariant for the concurrent pool. -/
def Pool.inv {T : Type} (p : Pool T) : Prop :=
  p.storage.len ≤ p.storage.capacity

/-- The `stored_count ≤ capacity` invariant for the thread-confined pool. -/
def LocalPool.inv {T : Type} (q : LocalPool T) : Prop :=
  q.storage.len ≤ q.storage.capacity

instance {T : Type} (p : Pool T) : Decidable p.inv := by
  unfold Pool.inv; infer_instance

instance {T : Type} (q : LocalPool T) : Decidable q.inv := by
  unfold LocalPool.inv; infer_instance

/-- Test harness over the embedded operations: iterate `try_get` up to `n`
times, collecting the objects obtained, stopping at the first `none`. -/
def tryGetAll {T : Type} : Nat → LocalPool T → List T
  | 0, _ => []
  | n + 1, q =>
      match LocalPool.try_get q with
      | (some g, q1, _) => g.obj :: tryGetAll n q1
      | (none, _, _) => []

/-- The fixed-value allocator of the round-trip claim: `allocate` always
constructs `v` and `reset` restores `v`. -/
def constAlloc {T : Type} (v : T) : PoolAllocator T :=
  ⟨v, fun _ => v, fun _ => true⟩

/-- A sample allocator used to instantiate witnesses: builds `10`, resets by
adding one, and considers `0` invalid. -/
def sampleAlloc : PoolAllocator Nat :=
  ⟨10, fun obj => obj + 1, fun obj => decide (obj ≠ 0)⟩

/-- The minimal allocator of the repository's test suite (`SimpleAllocator`):
only `allocate` is provided (fixed value `10`), `reset` and `is_valid` keep
their trait defaults. -/
def SimpleAllocator : PoolAllocator Nat :=
  { allocate := 10 }

/-- Behaviour of the prefill loop when the queue has room for all pushes:
every push is accepted, so the loop appends `n` freshly allocated objects,
keeps the capacity, and calls `allocate` exactly `n` times. -/
theorem prefillLoop_spec {T : Type} (a : PoolAllocator T) :
    ∀ (n : Nat) (s : ArrayQueue T), s.items.length + n ≤ s.cap →
      (prefillLoop a n s).1.items = s.items ++ List.replicate n a.allocate ∧
      (prefillLoop a n s).1.cap = s.cap ∧
      (prefillLoop a n s).2.allocates = n := by
  intro n
  induction n with
  | zero => intro s h; simp [prefillLoop]
  | succ m ih =>
      intro s h
      have hroom : s.items.length < s.cap := by omega
      have hpush : s.push a.allocate = (⟨s.cap, s.items ++ [a.allocate]⟩, true) := by
        simp [ArrayQueue.push, hroom]
      have h2 : (⟨s.cap, s.items ++ [a.allocate]⟩ : ArrayQueue T).items.length + m ≤
          (⟨s.cap, s.items ++ [a.allocate]⟩ : ArrayQueue T).cap := by
        simp; omega
      obtain ⟨h3, h4, h5⟩ := ih ⟨s.cap, s.items ++ [a.allocate]⟩ h2
      simp only [prefillLoop, hpush]
      refine ⟨?_, ?_, ?_⟩
      · simp [h3, List.replicate_succ]
      · simpa using h4
      · simp [h5]

/-- Behaviour of the local prefill loop below capacity: no reallocation
happens, the loop appends `n` freshly allocated objects at the back, keeps
the capacity, and calls `allocate` exactly `n` times. -/
theorem localPrefillLoop_spec {T : Type} (a : PoolAllocator T) :
    ∀ (n : Nat) (d : VecDeque T), d.items.length + n ≤ d.cap →
      (localPrefillLoop a n d).1.items = d.items ++ List.replicate n a.allocate ∧
      (localPrefillLoop a n d).1.cap = d.cap ∧
      (localPrefillLoop a n d).2.allocates = n := by
  intro n
  induction n with
  | zero => intro d h; simp [localPrefillLoop]
  | succ m ih =>
      intro d h
      have hroom : d.items.length < d.cap := by omega
      have hpush : d.push_back a.allocate = ⟨d.cap, d.items ++ [a.allocate]⟩ := by
        simp [VecDeque.push_back, hroom]
      have h2 : (⟨d.cap, d.items ++ [a.allocate]⟩ : VecDeque T).items.length + m ≤
          (⟨d.cap, d.items ++ [a.allocate]⟩ : VecDeque T).cap := by
        simp; omega
      obtain ⟨h3, h4, h5⟩ := ih ⟨d.cap, d.items ++ [a.allocate]⟩ h2
      simp only [localPrefillLoop, hpush]
      refine ⟨?_, ?_, ?_⟩
      · simp [h3, List.replicate_succ]
      · simpa using h4
      · simp [h5]

/-- Claim C4: for every capacity `N ≥ 0` and every allocator, `new_prefilled`
on either pool kind calls `allocate` exactly `N` times and yields a pool with
`len() = N` and `cap() = N` immediately after construction. -/
theorem c4_new_prefilled_full {T : Type} (n : Nat) (a : PoolAllocator T) :
    (Pool.new_prefilled n a).1.len = n ∧
    (Pool.new_prefilled n a).1.cap = n ∧
    (Pool.new_prefilled n a).2.allocates = n ∧
    (LocalPool.new_prefilled n a).1.len = n ∧
    (LocalPool.new_prefilled n a).1.cap = n ∧
    (LocalPool.new_prefilled n a).2.allocates = n := by
  have h1 := prefillLoop_spec a n ⟨n, []⟩ (by simp)
  have h2 := localPrefillLoop_spec a n ⟨n, []⟩ (by simp)
  refine ⟨?_, ?_, ?_, ?_, ?_, ?_⟩
  · simp [Pool.new_prefilled, Pool.len, ArrayQueue.len, ArrayQueue.new, h1.1]
  · simp [Pool.new_prefilled, Pool.cap, ArrayQueue.capacity, ArrayQueue.new, h1.2.1]
  · simp [Pool.new_prefilled, ArrayQueue.new, h1.2.2]
  · simp [LocalPool.new_prefilled, LocalPool.len, VecDeque.len, VecDeque.with_capacity, h2.1]
  · simp [LocalPool.new_prefilled, LocalPool.cap, VecDeque.capacity, VecDeque.with_capacity,
      h2.2.1]
  · simp [LocalPool.new_prefilled, VecDeque.with_capacity, h2.2.2]

/-- Claim C3: checkout (`get`) always succeeds on both pool kinds: with
non-empty storage it pops the front object, resets it exactly once and wraps
it in an armed guard; with empty storage it allocates fresh, with no reset. -/
theorem c3_get_always_succeeds {T : Type} (p : Pool T) (q : LocalPool T) :
    (p.storage.items = [] →
      Pool.get p = (⟨p.allocator.allocate, true⟩, p, { allocates := 1 })) ∧
    (∀ x rest, p.storage.items = x :: rest →
      Pool.get p =
        (⟨p.allocator.reset x, true⟩, ⟨p.allocator, ⟨p.storage.cap, rest⟩⟩, { resets := 1 })) ∧
    (q.storage.items = [] →
      LocalPool.get q = (⟨q.allocator.allocate, true⟩, q, { allocates := 1 })) ∧
    (∀ x rest, q.storage.items = x :: rest →
      LocalPool.get q =
        (⟨q.allocator.reset x, true⟩, ⟨q.allocator, ⟨q.storage.cap, rest⟩⟩, { resets := 1 })) := by
  obtain ⟨a, c, items⟩ := p
  obtain ⟨b, d, jtems⟩ := q
  refine ⟨?_, ?_, ?_, ?_⟩
  · intro h; simp only at h; subst h; rfl
  · intro x rest h; simp only at h; subst h; rfl
  · intro h; simp only at h; subst h; rfl
  · intro x rest h; simp only at h; subst h; rfl

/-- Witness for C3 on concrete pools: a checkout from an empty two-slot pool
allocates `10`; a checkout from a pool storing `5` yields the reset value `6`
and removes the stored object. -/
theorem c3_get_always_succeeds_witness :
    Pool.get ⟨sampleAlloc, ⟨2, []⟩⟩ = (⟨10, true⟩, ⟨sampleAlloc, ⟨2, []⟩⟩, { allocates := 1 }) ∧
    Pool.get ⟨sampleAlloc, ⟨2, [5]⟩⟩ =
      (⟨6, true⟩, ⟨sampleAlloc, ⟨2, []⟩⟩, { resets := 1 }) ∧
    LocalPool.get ⟨sampleAlloc, ⟨2, []⟩⟩ =
      (⟨10, true⟩, ⟨sampleAlloc, ⟨2, []⟩⟩, { allocates := 1 }) ∧
    LocalPool.get ⟨sampleAlloc, ⟨2, [5]⟩⟩ =
      (⟨6, true⟩, ⟨sampleAlloc, ⟨2, []⟩⟩, { resets := 1 }) := by
  refine ⟨?_, ?_, ?_, ?_⟩
  · exact (c3_get_always_succeeds ⟨sampleAlloc, ⟨2, []⟩⟩ ⟨sampleAlloc, ⟨2, []⟩⟩).1 rfl
  · exact (c3_get_always_succeeds ⟨sampleAlloc, ⟨2, [5]⟩⟩ ⟨sampleAlloc, ⟨2, []⟩⟩).2.1 5 [] rfl
  · exact (c3_get_always_succeeds ⟨sampleAlloc, ⟨2, []⟩⟩ ⟨sampleAlloc, ⟨2, []⟩⟩).2.2.1 rfl
  · exact (c3_get_always_succeeds ⟨sampleAlloc, ⟨2, []⟩⟩ ⟨sampleAlloc, ⟨2, [5]⟩⟩).2.2.2 5 [] rfl

/-- Claim C5: the thread-confined try-checkouts never allocate: on non-empty
storage they pop the front object, reset it once and wrap it; on empty
storage they return `none` and leave the pool unchanged. -/
theorem c5_try_get_never_allocates {T : Type} (q : LocalPool T) :
    (LocalPool.try_get q).2.2.allocates = 0 ∧
    (LocalPool.try_get_rc q).2.2.allocates = 0 ∧
    (q.storage.items = [] →
      LocalPool.try_get q = (none, q, {}) ∧ LocalPool.try_get_rc q = (none, q, {})) ∧
    (∀ x rest, q.storage.items = x :: rest →
      LocalPool.try_get q =
        (some ⟨q.allocator.reset x, true⟩, ⟨q.allocator, ⟨q.storage.cap, rest⟩⟩,
          { resets := 1 }) ∧
      LocalPool.try_get_rc q =
        (some ⟨q.allocator.reset x, true⟩, ⟨q.allocator, ⟨q.storage.cap, rest⟩⟩,
          { resets := 1 })) := by
  obtain ⟨a, c, items⟩ := q
  cases items with
  | nil => exact ⟨rfl, rfl, fun _ => ⟨rfl, rfl⟩, fun x rest h => by simp at h⟩
  | cons x rest =>
      refine ⟨rfl, rfl, fun h => by simp at h, fun y ys h => ?_⟩
      obtain ⟨h1, h2⟩ : x = y ∧ rest = ys := by simpa using h
      subst h1; subst h2
      exact ⟨rfl, rfl⟩

/-- Witness for C5: on a pool storing `5`, both try-checkouts yield the reset
value `6` without allocating; on an emptied pool, both yield `none` and leave
the pool untouched. -/
theorem c5_try_get_never_allocates_witness :
    LocalPool.try_get ⟨sampleAlloc, ⟨2, [5]⟩⟩ =
      (some ⟨6, true⟩, ⟨sampleAlloc, ⟨2, []⟩⟩, { resets := 1 }) ∧
    LocalPool.try_get_rc ⟨sampleAlloc, ⟨2, [5]⟩⟩ =
      (some ⟨6, true⟩, ⟨sampleAlloc, ⟨2, []⟩⟩, { resets := 1 }) ∧
    LocalPool.try_get ⟨sampleAlloc, ⟨2, []⟩⟩ = (none, ⟨sampleAlloc, ⟨2, []⟩⟩, {}) ∧
    LocalPool.try_get_rc ⟨sampleAlloc, ⟨2, []⟩⟩ = (none, ⟨sampleAlloc, ⟨2, []⟩⟩, {}) := by
  obtain ⟨w1, w2⟩ := (c5_try_get_never_allocates ⟨sampleAlloc, ⟨2, [5]⟩⟩).2.2.2 5 [] rfl
  obtain ⟨w3, w4⟩ := (c5_try_get_never_allocates ⟨sampleAlloc, ⟨2, []⟩⟩).2.2.1 rfl
  exact ⟨w1, w2, w3, w4⟩

/-- Claim C9: the shared-ownership checkouts follow pop/reset/allocate logic
identical to the borrow-scoped checkouts: for the same pool state they yield
the same object, the same armedness, the same resulting storage and the same
allocator-call counts; only the guard's pool-reference kind differs. -/
theorem c9_get_rc_matches_get {T : Type} (p : Pool T) (q : LocalPool T) :
    (Pool.get_rc p).1.obj = (Pool.get p).1.obj ∧
    (Pool.get_rc p).1.armed = (Pool.get p).1.armed ∧
    (Pool.get_rc p).2 = (Pool.get p).2 ∧
    (LocalPool.get_rc q).1.obj = (LocalPool.get q).1.obj ∧
    (LocalPool.get_rc q).1.armed = (LocalPool.get q).1.armed ∧
    (LocalPool.get_rc q).2 = (LocalPool.get q).2 := by
  obtain ⟨a, c, items⟩ := p
  obtain ⟨b, d, jtems⟩ := q
  cases items <;> cases jtems <;> exact ⟨rfl, rfl, rfl, rfl, rfl, rfl⟩

/-- Draining a confined pool via repeated `try_get` yields exactly the stored
objects, oldest first, each passed through `reset`. -/
theorem tryGetAll_drain {T : Type} (a : PoolAllocator T) (c : Nat) :
    ∀ items : List T,
      tryGetAll items.length ⟨a, ⟨c, items⟩⟩ = items.map a.reset := by
  intro items
  induction items with
  | nil => rfl
  | cons x rest ih =>
      simp only [List.length_cons, tryGetAll, LocalPool.try_get, VecDeque.pop_front,
        List.map_cons]
      exact congrArg (a.reset x :: ·) ih

/-- Claim C10: the thread-confined pool recycles oldest-first: `get` and
`try_get` remove the front of the deque, a valid in-capacity release appends
at the back, and draining a pool by repeated try-checkout returns the stored
objects in exactly their storage order. -/
theorem c10_local_fifo {T : Type} (a : PoolAllocator T) (c : Nat) (x y : T)
    (rest : List T) (q : LocalPool T)
    (hv : q.allocator.is_valid y = true) (hc : q.storage.len < q.storage.capacity) :
    (LocalPool.get ⟨a, ⟨c, x :: rest⟩⟩).1.obj = a.reset x ∧
    (LocalPool.get ⟨a, ⟨c, x :: rest⟩⟩).2.1.storage.items = rest ∧
    (LocalPool.try_get ⟨a, ⟨c, x :: rest⟩⟩).1 = some ⟨a.reset x, true⟩ ∧
    (LocalPool.try_get ⟨a, ⟨c, x :: rest⟩⟩).2.1.storage.items = rest ∧
    (RefLocalGuard.drop ⟨y, true⟩ q).1.storage.items = q.storage.items ++ [y] ∧
    (RcLocalGuard.drop ⟨y, true⟩ q).1.storage.items = q.storage.items ++ [y] ∧
    tryGetAll (x :: rest).length ⟨a, ⟨c, x :: rest⟩⟩ = (x :: rest).map a.reset := by
  have hroom : q.storage.items.length < q.storage.cap := hc
  refine ⟨rfl, rfl, rfl, rfl, ?_, ?_, tryGetAll_drain a c (x :: rest)⟩
  · simp [RefLocalGuard.drop, hv, hc, VecDeque.push_back, hroom]
  · simp [RcLocalGuard.drop, hv, hc, VecDeque.push_back, hroom]

/-- Witness for C10: a pool storing `[5, 7]` yields the reset front `6` and
keeps `[7]`; releasing a guard over `4` into it appends at the back; draining
`[5, 7]` yields `[6, 8]` in order. -/
theorem c10_local_fifo_witness :
    (LocalPool.get ⟨sampleAlloc, ⟨4, [5, 7]⟩⟩).1.obj = 6 ∧
    (LocalPool.try_get ⟨sampleAlloc, ⟨4, [5, 7]⟩⟩).2.1.storage.items = [7] ∧
    (RefLocalGuard.drop ⟨4, true⟩ ⟨sampleAlloc, ⟨4, [5, 7]⟩⟩).1.storage.items = [5, 7, 4] ∧
    tryGetAll 2 ⟨sampleAlloc, ⟨4, [5, 7]⟩⟩ = [6, 8] := by
  have h := c10_local_fifo sampleAlloc 4 5 4 [7] ⟨sampleAlloc, ⟨4, [5, 7]⟩⟩
    (by decide) (by decide)
  exact ⟨h.1, h.2.2.2.1, h.2.2.2.2.1, h.2.2.2.2.2.2⟩

/-- Closed form of releasing a still-armed `RefGuard`: validate, then either
append at the back of storage (valid, room) or leave the pool unchanged and
destroy the object (invalid, or storage at capacity). -/
theorem refGuard_drop_armed {T : Type} (p : Pool T) (x : T) :
    RefGuard.drop ⟨x, true⟩ p =
      if p.allocator.is_valid x ∧ p.storage.len < p.storage.capacity then
        (⟨p.allocator, ⟨p.storage.cap, p.storage.items ++ [x]⟩⟩, { validates := 1 })
      else (p, { validates := 1, destroys := 1 }) := by
  unfold RefGuard.drop ArrayQueue.push
  by_cases hv : p.allocator.is_valid x <;>
    by_cases hr : p.storage.items.length < p.storage.cap <;>
      simp [hv, hr, ArrayQueue.len, ArrayQueue.capacity]

/-- Closed form of releasing a still-armed `RcGuard` (same Drop body). -/
theorem rcGuard_drop_armed {T : Type} (p : Pool T) (x : T) :
    RcGuard.drop ⟨x, true⟩ p =
      if p.allocator.is_valid x ∧ p.storage.len < p.storage.capacity then
        (⟨p.allocator, ⟨p.storage.cap, p.storage.items ++ [x]⟩⟩, { validates := 1 })
      else (p, { validates := 1, destroys := 1 }) := by
  unfold RcGuard.drop ArrayQueue.push
  by_cases hv : p.allocator.is_valid x <;>
    by_cases hr : p.storage.items.length < p.storage.cap <;>
      simp [hv, hr, ArrayQueue.len, ArrayQueue.capacity]

/-- Closed form of releasing a still-armed `RefLocalGuard`. -/
theorem refLocalGuard_drop_armed {T : Type} (q : LocalPool T) (x : T) :
    RefLocalGuard.drop ⟨x, true⟩ q =
      if q.allocator.is_valid x ∧ q.storage.len < q.storage.capacity then
        (⟨q.allocator, ⟨q.storage.cap, q.storage.items ++ [x]⟩⟩, { validates := 1 })
      else (q, { validates := 1, destroys := 1 }) := by
  unfold RefLocalGuard.drop VecDeque.push_back
  by_cases hv : q.allocator.is_valid x <;>
    by_cases hr : q.storage.items.length < q.storage.cap <;>
      simp [hv, hr, VecDeque.len, VecDeque.capacity]

/-- Closed form of releasing a still-armed `RcLocalGuard` (same Drop body). -/
theorem rcLocalGuard_drop_armed {T : Type} (q : LocalPool T) (x : T) :
    RcLocalGuard.drop ⟨x, true⟩ q =
      if q.allocator.is_valid x ∧ q.storage.len < q.storage.capacity then
        (⟨q.allocator, ⟨q.storage.cap, q.storage.items ++ [x]⟩⟩, { validates := 1 })
      else (q, { validates := 1, destroys := 1 }) := by
  unfold RcLocalGuard.drop VecDeque.push_back
  by_cases hv : q.allocator.is_valid x <;>
    by_cases hr : q.storage.items.length < q.storage.cap <;>
      simp [hv, hr, VecDeque.len, VecDeque.capacity]

/-- Claim C1: on release of any armed guard (all four variants), `is_valid`
is evaluated exactly once on the held object; if it holds and storage has
room the object is pushed at the back; if the push would be rejected
(storage at capacity) or `is_valid` failed, the object is destroyed in place
and the pool is unchanged — release is total, surfacing no error. -/
theorem c1_release_discipline {T : Type} (p : Pool T) (q : LocalPool T) (x : T) :
    ((RefGuard.drop ⟨x, true⟩ p).2.validates = 1 ∧
     (p.allocator.is_valid x = true → p.storage.len < p.storage.capacity →
       (RefGuard.drop ⟨x, true⟩ p).1.storage.items = p.storage.items ++ [x] ∧
       (RefGuard.drop ⟨x, true⟩ p).2.destroys = 0) ∧
     (p.allocator.is_valid x = true → ¬ p.storage.len < p.storage.capacity →
       (RefGuard.drop ⟨x, true⟩ p).1 = p ∧ (RefGuard.drop ⟨x, true⟩ p).2.destroys = 1) ∧
     (p.allocator.is_valid x = false →
       (RefGuard.drop ⟨x, true⟩ p).1 = p ∧ (RefGuard.drop ⟨x, true⟩ p).2.destroys = 1)) ∧
    ((RcGuard.drop ⟨x, true⟩ p).2.validates = 1 ∧
     (p.allocator.is_valid x = true → p.storage.len < p.storage.capacity →
       (RcGuard.drop ⟨x, true⟩ p).1.storage.items = p.storage.items ++ [x] ∧
       (RcGuard.drop ⟨x, true⟩ p).2.destroys = 0) ∧
     (p.allocator.is_valid x = true → ¬ p.storage.len < p.storage.capacity →
       (RcGuard.drop ⟨x, true⟩ p).1 = p ∧ (RcGuard.drop ⟨x, true⟩ p).2.destroys = 1) ∧
     (p.allocator.is_valid x = false →
       (RcGuard.drop ⟨x, true⟩ p).1 = p ∧ (RcGuard.drop ⟨x, true⟩ p).2.destroys = 1)) ∧
    ((RefLocalGuard.drop ⟨x, true⟩ q).2.validates = 1 ∧
     (q.allocator.is_valid x = true → q.storage.len < q.storage.capacity →
       (RefLocalGuard.drop ⟨x, true⟩ q).1.storage.items = q.storage.items ++ [x] ∧
       (RefLocalGuard.drop ⟨x, true⟩ q).2.destroys = 0) ∧
     (q.allocator.is_valid x = true → ¬ q.storage.len < q.storage.capacity →
       (RefLocalGuard.drop ⟨x, true⟩ q).1 = q ∧
       (RefLocalGuard.drop ⟨x, true⟩ q).2.destroys = 1) ∧
     (q.allocator.is_valid x = false →
       (RefLocalGuard.drop ⟨x, true⟩ q).1 = q ∧
       (RefLocalGuard.drop ⟨x, true⟩ q).2.destroys = 1)) ∧
    ((RcLocalGuard.drop ⟨x, true⟩ q).2.validates = 1 ∧
     (q.allocator.is_valid x = true → q.storage.len < q.storage.capacity →
       (RcLocalGuard.drop ⟨x, true⟩ q).1.storage.items = q.storage.items ++ [x] ∧
       (RcLocalGuard.drop ⟨x, true⟩ q).2.destroys = 0) ∧
     (q.allocator.is_valid x = true → ¬ q.storage.len < q.storage.capacity →
       (RcLocalGuard.drop ⟨x, true⟩ q).1 = q ∧
       (RcLocalGuard.drop ⟨x, true⟩ q).2.destroys = 1) ∧
     (q.allocator.is_valid x = false →
       (RcLocalGuard.drop ⟨x, true⟩ q).1 = q ∧
       (RcLocalGuard.drop ⟨x, true⟩ q).2.destroys = 1)) := by
  rw [refGuard_drop_armed, rcGuard_drop_armed, refLocalGuard_drop_armed,
    rcLocalGuard_drop_armed]
  refine ⟨⟨?_, ?_, ?_, ?_⟩, ⟨?_, ?_, ?_, ?_⟩, ⟨?_, ?_, ?_, ?_⟩, ⟨?_, ?_, ?_, ?_⟩⟩ <;>
    first
      | (split <;> rfl)
      | (intro hv hr; rw [if_pos ⟨hv, hr⟩]; exact ⟨rfl, rfl⟩)
      | (intro hv hr; rw [if_neg (fun hand => hr hand.2)]; exact ⟨rfl, rfl⟩)
      | (intro hv; rw [if_neg (fun hand => by simp [hv] at hand)]; exact ⟨rfl, rfl⟩)

/-- Witness for C1 on `sampleAlloc` (which rejects `0`): a valid release into
a pool with room pushes at the back; a valid release into a full pool
destroys; an invalid object (`0`) is destroyed even with room; in each case
`is_valid` ran exactly once. -/
theorem c1_release_discipline_witness :
    (RefGuard.drop ⟨4, true⟩ ⟨sampleAlloc, ⟨2, [9]⟩⟩).1.storage.items = [9, 4] ∧
    (RefGuard.drop ⟨4, true⟩ ⟨sampleAlloc, ⟨2, [9]⟩⟩).2.validates = 1 ∧
    (RcGuard.drop ⟨4, true⟩ ⟨sampleAlloc, ⟨1, [9]⟩⟩).1 = ⟨sampleAlloc, ⟨1, [9]⟩⟩ ∧
    (RcGuard.drop ⟨4, true⟩ ⟨sampleAlloc, ⟨1, [9]⟩⟩).2.destroys = 1 ∧
    (RefLocalGuard.drop ⟨0, true⟩ ⟨sampleAlloc, ⟨2, [9]⟩⟩).1 = ⟨sampleAlloc, ⟨2, [9]⟩⟩ ∧
    (RefLocalGuard.drop ⟨0, true⟩ ⟨sampleAlloc, ⟨2, [9]⟩⟩).2.destroys = 1 ∧
    (RcLocalGuard.drop ⟨4, true⟩ ⟨sampleAlloc, ⟨2, [9]⟩⟩).1.storage.items = [9, 4] := by
  have h1 := c1_release_discipline ⟨sampleAlloc, ⟨2, [9]⟩⟩ ⟨sampleAlloc, ⟨2, [9]⟩⟩ 4
  have h2 := c1_release_discipline ⟨sampleAlloc, ⟨1, [9]⟩⟩ ⟨sampleAlloc, ⟨2, [9]⟩⟩ 4
  have h3 := c1_release_discipline ⟨sampleAlloc, ⟨2, [9]⟩⟩ ⟨sampleAlloc, ⟨2, [9]⟩⟩ 0
  refine ⟨(h1.1.2.1 (by decide) (by decide)).1, h1.1.1, ?_, ?_, ?_, ?_,
    (h1.2.2.2.2.1 (by decide) (by decide)).1⟩
  · exact (h2.2.1.2.2.1 (by decide) (by decide)).1
  · exact (h2.2.1.2.2.1 (by decide) (by decide)).2
  · exact (h3.2.2.1.2.2.2 (by decide)).1
  · exact (h3.2.2.1.2.2.2 (by decide)).2

/-- Claim C6: for every guard variant, `into_inner` returns the held object
and disarms the guard, so the release finalization is a complete no-op
afterwards: the pool (hence `len()`) is unchanged and no validation,
push or destruction happens — the object never re-enters storage and is
never double-finalized. -/
theorem c6_into_inner_extracts_and_disarms {T : Type} (x : T) (p : Pool T)
    (q : LocalPool T) :
    (RefGuard.into_inner ⟨x, true⟩).1 = x ∧
    (RefGuard.into_inner ⟨x, true⟩).2.armed = false ∧
    RefGuard.drop (RefGuard.into_inner ⟨x, true⟩).2 p = (p, {}) ∧
    (RefGuard.drop (RefGuard.into_inner ⟨x, true⟩).2 p).1.len = p.len ∧
    (RcGuard.into_inner ⟨x, true⟩).1 = x ∧
    (RcGuard.into_inner ⟨x, true⟩).2.armed = false ∧
    RcGuard.drop (RcGuard.into_inner ⟨x, true⟩).2 p = (p, {}) ∧
    (RcGuard.drop (RcGuard.into_inner ⟨x, true⟩).2 p).1.len = p.len ∧
    (RefLocalGuard.into_inner ⟨x, true⟩).1 = x ∧
    (RefLocalGuard.into_inner ⟨x, true⟩).2.armed = false ∧
    RefLocalGuard.drop (RefLocalGuard.into_inner ⟨x, true⟩).2 q = (q, {}) ∧
    (RefLocalGuard.drop (RefLocalGuard.into_inner ⟨x, true⟩).2 q).1.len = q.len ∧
    (RcLocalGuard.into_inner ⟨x, true⟩).1 = x ∧
    (RcLocalGuard.into_inner ⟨x, true⟩).2.armed = false ∧
    RcLocalGuard.drop (RcLocalGuard.into_inner ⟨x, true⟩).2 q = (q, {}) ∧
    (RcLocalGuard.drop (RcLocalGuard.into_inner ⟨x, true⟩).2 q).1.len = q.len :=
  ⟨rfl, rfl, rfl, rfl, rfl, rfl, rfl, rfl, rfl, rfl, rfl, rfl, rfl, rfl, rfl, rfl⟩

/-- Claim C8: with an allocator that always constructs `v` and whose reset
restores `v`, every checkout (borrow-scoped or shared, either pool kind, any
storage state) yields exactly `v`; all operations preserve the allocator, so
this holds across arbitrarily many checkout-and-release recycle cycles. -/
theorem c8_round_trip_fidelity {T : Type} (v : T) (p : Pool T) (q : LocalPool T)
    (hp : p.allocator = constAlloc v) (hq : q.allocator = constAlloc v) :
    (Pool.get p).1.obj = v ∧ (Pool.get_rc p).1.obj = v ∧
    (LocalPool.get q).1.obj = v ∧ (LocalPool.get_rc q).1.obj = v ∧
    (∀ g, (LocalPool.try_get q).1 = some g → g.obj = v) ∧
    (Pool.get p).2.1.allocator = constAlloc v ∧
    (LocalPool.get q).2.1.allocator = constAlloc v ∧
    (∀ g : RefGuard T, (RefGuard.drop g p).1.allocator = constAlloc v) ∧
    (∀ g : RcGuard T, (RcGuard.drop g p).1.allocator = constAlloc v) ∧
    (∀ g : RefLocalGuard T, (RefLocalGuard.drop g q).1.allocator = constAlloc v) ∧
    (∀ g : RcLocalGuard T, (RcLocalGuard.drop g q).1.allocator = constAlloc v) := by
  obtain ⟨pa, pc, pitems⟩ := p
  obtain ⟨qa, qc, qitems⟩ := q
  simp only at hp hq
  subst hp; subst hq
  refine ⟨?_, ?_, ?_, ?_, ?_, ?_, ?_, ?_, ?_, ?_, ?_⟩
  · cases pitems <;> rfl
  · cases pitems <;> rfl
  · cases qitems <;> rfl
  · cases qitems <;> rfl
  · cases qitems with
    | nil => intro g h; simp [LocalPool.try_get, VecDeque.pop_front] at h
    | cons z zs =>
        intro g h
        simp only [LocalPool.try_get, VecDeque.pop_front, Option.some.injEq] at h
        rw [← h]; simp [constAlloc]
  · cases pitems <;> rfl
  · cases qitems <;> rfl
  · intro g; unfold RefGuard.drop; split <;> simp [constAlloc]
  · intro g; unfold RcGuard.drop; split <;> simp [constAlloc]
  · intro g; unfold RefLocalGuard.drop; split
    · simp only [constAlloc]; split <;> rfl
    · rfl
  · intro g; unfold RcLocalGuard.drop; split
    · simp only [constAlloc]; split <;> rfl
    · rfl

/-- Witness for C8: a pool over `constAlloc 10` yields `10` from checkout
both when storage holds a (stale) `3` and when storage is empty. -/
theorem c8_round_trip_fidelity_witness :
    (Pool.get ⟨constAlloc 10, ⟨2, [3]⟩⟩).1.obj = 10 ∧
    (Pool.get ⟨constAlloc 10, ⟨2, []⟩⟩).1.obj = 10 ∧
    (LocalPool.get ⟨constAlloc 10, ⟨2, [3]⟩⟩).1.obj = 10 ∧
    (LocalPool.get_rc ⟨constAlloc 10, ⟨2, []⟩⟩).1.obj = 10 := by
  have h1 := c8_round_trip_fidelity 10 ⟨constAlloc 10, ⟨2, [3]⟩⟩
    ⟨constAlloc 10, ⟨2, [3]⟩⟩ rfl rfl
  have h2 := c8_round_trip_fidelity 10 ⟨constAlloc 10, ⟨2, []⟩⟩
    ⟨constAlloc 10, ⟨2, []⟩⟩ rfl rfl
  exact ⟨h1.1, h2.1, h1.2.2.1, h2.2.2.2.1⟩

/-- Releasing a `RefGuard` (armed or not) preserves `stored_count ≤ capacity`. -/
theorem refGuard_drop_inv {T : Type} (g : RefGuard T) (p : Pool T) (hp : p.inv) :
    (RefGuard.drop g p).1.inv := by
  obtain ⟨x, b⟩ := g
  cases b with
  | false => exact hp
  | true =>
      rw [refGuard_drop_armed]
      split
      case isTrue h =>
        simp only [Pool.inv, ArrayQueue.len, ArrayQueue.capacity] at h ⊢
        simp only [List.length_append, List.length_cons, List.length_nil]
        omega
      case isFalse h => exact hp

/-- Releasing an `RcGuard` preserves `stored_count ≤ capacity`. -/
theorem rcGuard_drop_inv {T : Type} (g : RcGuard T) (p : Pool T) (hp : p.inv) :
    (RcGuard.drop g p).1.inv := by
  obtain ⟨x, b⟩ := g
  cases b with
  | false => exact hp
  | true =>
      rw [rcGuard_drop_armed]
      split
      case isTrue h =>
        simp only [Pool.inv, ArrayQueue.len, ArrayQueue.capacity] at h ⊢
        simp only [List.length_append, List.length_cons, List.length_nil]
        omega
      case isFalse h => exact hp

/-- Releasing a `RefLocalGuard` preserves `stored_count ≤ capacity`. -/
theorem refLocalGuard_drop_inv {T : Type} (g : RefLocalGuard T) (q : LocalPool T)
    (hq : q.inv) : (RefLocalGuard.drop g q).1.inv := by
  obtain ⟨x, b⟩ := g
  cases b with
  | false => exact hq
  | true =>
      rw [refLocalGuard_drop_armed]
      split
      case isTrue h =>
        simp only [LocalPool.inv, VecDeque.len, VecDeque.capacity] at h ⊢
        simp only [List.length_append, List.length_cons, List.length_nil]
        omega
      case isFalse h => exact hq

/-- Releasing an `RcLocalGuard` preserves `stored_count ≤ capacity`. -/
theorem rcLocalGuard_drop_inv {T : Type} (g : RcLocalGuard T) (q : LocalPool T)
    (hq : q.inv) : (RcLocalGuard.drop g q).1.inv := by
  obtain ⟨x, b⟩ := g
  cases b with
  | false => exact hq
  | true =>
      rw [rcLocalGuard_drop_armed]
      split
      case isTrue h =>
        simp only [LocalPool.inv, VecDeque.len, VecDeque.capacity] at h ⊢
        simp only [List.length_append, List.length_cons, List.length_nil]
        omega
      case isFalse h => exact hq

/-- Claim C2: the number of stored objects never exceeds the capacity: both
constructors establish `stored_count ≤ capacity`, and every checkout,
try-checkout and guard release preserves it (extraction does not touch the
pool at all, see the extraction theorem). -/
theorem c2_stored_count_le_capacity {T : Type} (n : Nat) (a : PoolAllocator T)
    (p : Pool T) (q : LocalPool T) (g1 : RefGuard T) (g2 : RcGuard T)
    (g3 : RefLocalGuard T) (g4 : RcLocalGuard T) (hp : p.inv) (hq : q.inv) :
    (Pool.new n a).inv ∧ (Pool.new_prefilled n a).1.inv ∧
    (LocalPool.new n a).inv ∧ (LocalPool.new_prefilled n a).1.inv ∧
    (Pool.get p).2.1.inv ∧ (Pool.get_rc p).2.1.inv ∧
    (LocalPool.get q).2.1.inv ∧ (LocalPool.get_rc q).2.1.inv ∧
    (LocalPool.try_get q).2.1.inv ∧ (LocalPool.try_get_rc q).2.1.inv ∧
    (RefGuard.drop g1 p).1.inv ∧ (RcGuard.drop g2 p).1.inv ∧
    (RefLocalGuard.drop g3 q).1.inv ∧ (RcLocalGuard.drop g4 q).1.inv := by
  refine ⟨?_, ?_, ?_, ?_, ?_, ?_, ?_, ?_, ?_, ?_,
    refGuard_drop_inv g1 p hp, rcGuard_drop_inv g2 p hp,
    refLocalGuard_drop_inv g3 q hq, rcLocalGuard_drop_inv g4 q hq⟩
  · simp [Pool.new, Pool.inv, ArrayQueue.new, ArrayQueue.len, ArrayQueue.capacity]
  · have h := prefillLoop_spec a n ⟨n, []⟩ (by simp)
    simp [Pool.new_prefilled, Pool.inv, ArrayQueue.new, ArrayQueue.len, ArrayQueue.capacity,
      h.1, h.2.1]
  · simp [LocalPool.new, LocalPool.inv, VecDeque.with_capacity, VecDeque.len,
      VecDeque.capacity]
  · have h := localPrefillLoop_spec a n ⟨n, []⟩ (by simp)
    simp [LocalPool.new_prefilled, LocalPool.inv, VecDeque.with_capacity, VecDeque.len,
      VecDeque.capacity, h.1, h.2.1]
  all_goals obtain ⟨pa, pc, pitems⟩ := p
  all_goals obtain ⟨qa, qc, qitems⟩ := q
  all_goals simp only [Pool.inv, LocalPool.inv, ArrayQueue.len, ArrayQueue.capacity,
    VecDeque.len, VecDeque.capacity] at hp hq
  · cases pitems with
    | nil => exact hp
    | cons y ys =>
        simp only [Pool.get, ArrayQueue.pop, Pool.inv, ArrayQueue.len, ArrayQueue.capacity]
        simp only [List.length_cons] at hp
        omega
  · cases pitems with
    | nil => exact hp
    | cons y ys =>
        simp only [Pool.get_rc, ArrayQueue.pop, Pool.inv, ArrayQueue.len, ArrayQueue.capacity]
        simp only [List.length_cons] at hp
        omega
  · cases qitems with
    | nil => exact hq
    | cons y ys =>
        simp only [LocalPool.get, VecDeque.pop_front, LocalPool.inv, VecDeque.len,
          VecDeque.capacity]
        simp only [List.length_cons] at hq
        omega
  · cases qitems with
    | nil => exact hq
    | cons y ys =>
        simp only [LocalPool.get_rc, VecDeque.pop_front, LocalPool.inv, VecDeque.len,
          VecDeque.capacity]
        simp only [List.length_cons] at hq
        omega
  · cases qitems with
    | nil => exact hq
    | cons y ys =>
        simp only [LocalPool.try_get, VecDeque.pop_front, LocalPool.inv, VecDeque.len,
          VecDeque.capacity]
        simp only [List.length_cons] at hq
        omega
  · cases qitems with
    | nil => exact hq
    | cons y ys =>
        simp only [LocalPool.try_get_rc, VecDeque.pop_front, LocalPool.inv, VecDeque.len,
          VecDeque.capacity]
        simp only [List.length_cons] at hq
        omega

/-- Witness for C2: invariant established on a prefilled pool and preserved
by a release that pushes into a pool at `len 1`, `cap 2`. -/
theorem c2_stored_count_le_capacity_witness :
    (Pool.new_prefilled 3 sampleAlloc).1.inv ∧
    (RefGuard.drop ⟨4, true⟩ ⟨sampleAlloc, ⟨2, [9]⟩⟩).1.inv ∧
    (RcLocalGuard.drop ⟨4, true⟩ ⟨sampleAlloc, ⟨2, [9]⟩⟩).1.inv := by
  obtain ⟨w1, w2, w3, w4, w5, w6, w7, w8, w9, w10, w11, w12, w13, w14⟩ :=
    c2_stored_count_le_capacity 3 sampleAlloc ⟨sampleAlloc, ⟨2, [9]⟩⟩
      ⟨sampleAlloc, ⟨2, [9]⟩⟩ ⟨4, true⟩ ⟨4, true⟩ ⟨4, true⟩ ⟨4, true⟩
      (by decide) (by decide)
  exact ⟨w2, w11, w14⟩

/-- Claim C7 as stated fails on the code: take a concurrent pool holding one
object with capacity two (`len() = 1 < cap() = 2`, trivial test allocator).
The checkout pops the stored object (len drops to 0) and the immediate valid
release pushes it back (len returns to 1): `len()` ends at 1, not at
`1 + 1 = 2`, so checkout-then-release did not increase `len()` by 1 relative
to its pre-checkout value. -/
theorem c7_counterexample :
    ¬ ((RefGuard.drop (Pool.get ⟨SimpleAllocator, ⟨2, [7]⟩⟩).1
          (Pool.get ⟨SimpleAllocator, ⟨2, [7]⟩⟩).2.1).1.len
        = (⟨SimpleAllocator, ⟨2, [7]⟩⟩ : Pool Nat).len + 1) := by
  decide

/-- Claim C7 amended: on a pool with `len() < cap()`, a checkout immediately
followed by a release whose object passes `is_valid` increases `len()` by
exactly 1 relative to its value immediately after the checkout (relative to
before the checkout, the pair is net-neutral when an object was recycled and
+1 only when the checkout allocated fresh). -/
theorem c7_amended_release_adds_one {T : Type} (p : Pool T) (q : LocalPool T)
    (hp : p.len < p.cap) (hq : q.len < q.cap)
    (hvp : p.allocator.is_valid (Pool.get p).1.obj = true)
    (hvq : q.allocator.is_valid (LocalPool.get q).1.obj = true) :
    (RefGuard.drop (Pool.get p).1 (Pool.get p).2.1).1.len = (Pool.get p).2.1.len + 1 ∧
    (RefLocalGuard.drop (LocalPool.get q).1 (LocalPool.get q).2.1).1.len
      = (LocalPool.get q).2.1.len + 1 := by
  obtain ⟨pa, pc, pitems⟩ := p
  obtain ⟨qa, qc, qitems⟩ := q
  simp only [Pool.len, Pool.cap, ArrayQueue.len, ArrayQueue.capacity, LocalPool.len,
    LocalPool.cap, VecDeque.len, VecDeque.capacity] at hp hq
  constructor
  · cases pitems with
    | nil =>
        simp only [Pool.get, ArrayQueue.pop] at hvp ⊢
        rw [refGuard_drop_armed]
        rw [if_pos ⟨hvp, by simpa using hp⟩]
        simp [Pool.len, ArrayQueue.len]
    | cons y ys =>
        simp only [List.length_cons] at hp
        simp only [Pool.get, ArrayQueue.pop] at hvp ⊢
        rw [refGuard_drop_armed]
        rw [if_pos ⟨hvp, by simp only [ArrayQueue.len, ArrayQueue.capacity]; omega⟩]
        simp [Pool.len, ArrayQueue.len]
  · cases qitems with
    | nil =>
        simp only [LocalPool.get, VecDeque.pop_front] at hvq ⊢
        rw [refLocalGuard_drop_armed]
        rw [if_pos ⟨hvq, by simpa using hq⟩]
        simp [LocalPool.len, VecDeque.len]
    | cons y ys =>
        simp only [List.length_cons] at hq
        simp only [LocalPool.get, VecDeque.pop_front] at hvq ⊢
        rw [refLocalGuard_drop_armed]
        rw [if_pos ⟨hvq, by simp only [VecDeque.len, VecDeque.capacity]; omega⟩]
        simp [LocalPool.len, VecDeque.len]

/-- Witness for the amended C7: releasing the checked-out object back into a
two-slot pool that held one object brings `len()` from 0 (post-checkout) to
1, on both pool kinds. -/
theorem c7_amended_release_adds_one_witness :
    (RefGuard.drop (Pool.get ⟨SimpleAllocator, ⟨2, [7]⟩⟩).1
        (Pool.get ⟨SimpleAllocator, ⟨2, [7]⟩⟩).2.1).1.len = 1 ∧
    (RefLocalGuard.drop (LocalPool.get ⟨sampleAlloc, ⟨2, [5]⟩⟩).1
        (LocalPool.get ⟨sampleAlloc, ⟨2, [5]⟩⟩).2.1).1.len = 1 := by
  have h := c7_amended_release_adds_one ⟨SimpleAllocator, ⟨2, [7]⟩⟩
    ⟨sampleAlloc, ⟨2, [5]⟩⟩ (by decide) (by decide) (by decide) (by decide)
  exact ⟨h.1, h.2⟩

end Opool
